import Mathlib

/-!
# Verification of the Tekken matchup engine

Shallow embedding of the frame-data normalization and matchup-classification
engine of the Tekken match-analysis repository, together with proofs and
refutations of the specification's claims about it.

Embedded sources:
* `src/lib/matchup-context.ts` — `buildMatchupContext`, `toCharacterId`,
  `identifyKeyMoves`, `identifyPunishableMoves`, `parseFrameData`, `isSafe`;
* `src/lib/tekkendocs-client.ts` — `fetchCharacterFrameData` (cache check,
  fetch resolution, validation, caching) and its TTL cache;
* `src/lib/ai.ts` (lines 294–397) — the fallback punish-window builder
  (`punishWindows`, `optimalPunishes`) and punish-option construction.

JavaScript semantics are modelled explicitly: `parseInt` (whitespace skip,
optional sign, `0x` hex prefix, maximal digit prefix, `NaN` as `none`),
`||` defaulting on the empty string, `String.prototype.includes`,
`String.prototype.replace` (global `[+]` and single-occurrence forms),
`split(sep)[0]` as the longest separator-free prefix, and template-literal
rendering of `NaN` as the string `"NaN"`.  `Array.prototype.sort` is modelled
as a stable insertion sort (ECMAScript requires sort stability; the concrete
algorithm is implementation-internal, and all comparator uses proved sorted
here are consistent on the lists involved, where every conformant
implementation produces the same stable result).
-/

namespace Tekken

/-! ## JavaScript string and number primitives -/

/-- Value of a list of decimal digit characters, most significant first. -/
def digitsVal (ds : List Char) : Nat :=
  ds.foldl (fun a c => 10 * a + (c.toNat - 48)) 0

/-- Is `c` a hexadecimal digit? -/
def isHexDigit (c : Char) : Bool :=
  c.isDigit || ('a' ≤ c && c ≤ 'f') || ('A' ≤ c && c ≤ 'F')

/-- Value of one hexadecimal digit character. -/
def hexCharVal (c : Char) : Nat :=
  if c.isDigit then c.toNat - 48
  else if 'a' ≤ c && c ≤ 'f' then c.toNat - 87
  else c.toNat - 55

/-- Value of a list of hexadecimal digit characters, most significant first. -/
def hexVal (ds : List Char) : Nat :=
  ds.foldl (fun a c => 16 * a + hexCharVal c) 0

/-- ECMAScript `parseInt` (radix argument omitted) on a character list:
skip leading whitespace, read an optional sign, detect a `0x`/`0X` hex
prefix, then take the maximal digit prefix.  `none` models `NaN` (no digits
consumed); trailing non-digit characters are ignored. -/
def jsParseIntList (l : List Char) : Option Int :=
  let l1 := l.dropWhile Char.isWhitespace
  let sgn : Int := if l1.head? = some '-' then -1 else 1
  let l2 : List Char :=
    if l1.head? = some '-' ∨ l1.head? = some '+' then l1.tail else l1
  if l2.head? = some '0' ∧ (l2.tail.head? = some 'x' ∨ l2.tail.head? = some 'X') then
    let ds := (l2.drop 2).takeWhile isHexDigit
    if ds.isEmpty then none else some (sgn * (hexVal ds : Int))
  else
    let ds := l2.takeWhile Char.isDigit
    if ds.isEmpty then none else some (sgn * (digitsVal ds : Int))

/-- ECMAScript `parseInt` on a string. -/
def jsParseInt (s : String) : Option Int :=
  jsParseIntList s.data

/-- `s.replace(/[+]/g, '')`: remove every `'+'` character. -/
def removePlus (s : String) : String :=
  ⟨s.data.filter (· ≠ '+')⟩

/-- `s.toLowerCase()` (the frame-data strings are ASCII). -/
def jsToLower (s : String) : String :=
  ⟨s.data.map Char.toLower⟩

/-- Does `pat` occur as a contiguous sublist of `l`? -/
def listIncludes (pat : List Char) (l : List Char) : Bool :=
  match l with
  | [] => pat.isEmpty
  | _ :: cs => pat.isPrefixOf l || listIncludes pat cs

/-- `s.includes(pat)`. -/
def strIncludes (s pat : String) : Bool :=
  listIncludes pat.data s.data

/-- JavaScript `x || d` for an optional string `x`: `undefined` and the empty
string (both falsy) yield the default `d`. -/
def jsStringOr (s : Option String) (d : String) : String :=
  match s with
  | none => d
  | some s => if s = "" then d else s

/-- `s.split(sep)[0]`: the longest prefix of `s` free of `sep`. -/
def firstToken (sep : Char) (s : String) : String :=
  ⟨s.data.takeWhile (· ≠ sep)⟩

/-- Remove the first occurrence of `c` from a character list
(`s.replace('c', '')` with a string pattern replaces only the first hit). -/
def removeFirstChar (c : Char) : List Char → List Char
  | [] => []
  | d :: ds => if d = c then ds else d :: removeFirstChar c ds

/-- `s.replace(c, '')` for a one-character string pattern. -/
def removeFirst (c : Char) (s : String) : String :=
  ⟨removeFirstChar c s.data⟩

/-- Template-literal rendering of a JavaScript number that may be `NaN`. -/
def jsNumToString (n : Option Int) : String :=
  match n with
  | some v => toString v
  | none => "NaN"

/-- Template-literal rendering of a possibly-`undefined` string field. -/
def jsFieldToString (s : Option String) : String :=
  match s with
  | some v => v
  | none => "undefined"

/-! ## Data model (`src/types/tekkendocs.ts`) -/

/-- One move record from the tekkendocs frame-data response. -/
structure TekkenDocsMove where
  moveNumber : Int
  command : String
  hitLevel : String
  damage : String
  startup : String
  block : String
  hit : String
  counterHit : String
  notes : String
deriving DecidableEq, Repr

/-- One frame-data response (presentation fields kept as plain strings). -/
structure FrameDataResponse where
  characterName : String
  editUrl : String
  game : String
  framesNormal : List TekkenDocsMove
  stances : List String
deriving DecidableEq, Repr

/-- The matchup context assembled by `buildMatchupContext`. -/
structure MatchupContext where
  playerCharacter : String
  opponentCharacter : String
  playerMoves : List TekkenDocsMove
  opponentMoves : List TekkenDocsMove
  playerKeyMoves : List TekkenDocsMove
  opponentPunishableMoves : List TekkenDocsMove
deriving DecidableEq, Repr

/-! ## `parseFrameData` and `isSafe` (`matchup-context.ts` lines 183–195) -/

/-- Result type of `parseFrameData` (`number | string` in the source: a
number when `parseInt` succeeds, otherwise the raw input string returned
as-is). -/
inductive FrameValue where
  | num (n : Int)
  | str (s : String)
deriving DecidableEq, Repr

/-- `parseFrameData(value)`: `parseInt(value.replace(/[+]/g, ''))`, returning
the number on success and the raw string otherwise. -/
def parseFrameData (value : String) : FrameValue :=
  match jsParseInt (removePlus value) with
  | some n => .num n
  | none => .str value

/-- `isSafe(blockFrame)`: the parse result is a number and at least `-9`. -/
def isSafe (blockFrame : String) : Bool :=
  match parseFrameData blockFrame with
  | .num n => -9 ≤ n
  | .str _ => false

/-! ## Move classification (`matchup-context.ts` lines 117–181) -/

/-- `parseInt(move.block.replace(/[+]/g, ''))` as used by the classifier. -/
def parseBlockNum (m : TekkenDocsMove) : Option Int :=
  jsParseInt (removePlus m.block)

/-- `parseInt(move.startup)`. -/
def parseStartupNum (m : TekkenDocsMove) : Option Int :=
  jsParseInt m.startup

/-- Launcher test: `hit` or `counterHit`, lowercased, contains `"launch"`. -/
def isLauncher (m : TekkenDocsMove) : Bool :=
  strIncludes (jsToLower m.hit) "launch" || strIncludes (jsToLower m.counterHit) "launch"

/-- The special-property vocabulary checked against `notes`. -/
def specialProperties : List String :=
  ["homing", "heat", "power crush", "tornado", "balcony"]

/-- The key-move inclusion predicate (filter of `identifyKeyMoves`). -/
def isKeyMove (m : TekkenDocsMove) : Bool :=
  isLauncher m ||
  (match parseStartupNum m with
   | some n => n ≤ 12
   | none => false) ||
  (match parseBlockNum m with
   | some n => 0 < n
   | none => false) ||
  specialProperties.any (fun p => strIncludes (jsToLower m.notes) p)

/-- The key-move sort comparator (lines 146–161): launchers first, then,
when both block values parse, higher block value first, else `0`. -/
def keyMoveCmp (a b : TekkenDocsMove) : Int :=
  let aL := isLauncher a
  let bL := isLauncher b
  if aL && !bL then -1
  else if !aL && bL then 1
  else
    match parseBlockNum a, parseBlockNum b with
    | some x, some y => y - x
    | _, _ => 0

/-- Stable insertion step: place `x` before the first `y` with
`cmp y x > 0`, passing ties, as a stable `Array.prototype.sort` does. -/
def jsInsert (cmp : α → α → Int) (x : α) : List α → List α
  | [] => [x]
  | y :: ys => if 0 < cmp y x then x :: y :: ys else y :: jsInsert cmp x ys

/-- Stable sort modelling `Array.prototype.sort(cmp)`. -/
def jsSort (cmp : α → α → Int) (l : List α) : List α :=
  l.foldl (fun acc x => jsInsert cmp x acc) []

/-- `identifyKeyMoves`: filter, sort, take the top 20. -/
def identifyKeyMoves (moves : List TekkenDocsMove) : List TekkenDocsMove :=
  (jsSort keyMoveCmp (moves.filter isKeyMove)).take 20

/-- The punishable-move inclusion predicate: block parses and is `≤ -10`. -/
def isPunishable (m : TekkenDocsMove) : Bool :=
  match parseBlockNum m with
  | some n => n ≤ -10
  | none => false

/-- Parsed block value with a junk default; the punishable comparator only
ever runs on moves that passed `isPunishable`, where the parse succeeds. -/
def blockVal (m : TekkenDocsMove) : Int :=
  (parseBlockNum m).getD 0

/-- The punishable-move comparator (lines 174–178): ascending block value. -/
def punishCmp (a b : TekkenDocsMove) : Int :=
  blockVal a - blockVal b

/-- `identifyPunishableMoves`: filter, sort ascending, take the top 15. -/
def identifyPunishableMoves (moves : List TekkenDocsMove) : List TekkenDocsMove :=
  (jsSort punishCmp (moves.filter isPunishable)).take 15

/-! ## Fallback punish analysis (`ai.ts` lines 294–397)

The Ollama fallback path works on records of `tekken-punish-data.json`;
their `Command`, `Start up frame` and `Block frame` fields may be absent,
which the source guards with `?.` and `||`. -/

/-- One record of the punish-data JSON as accessed by the fallback code. -/
structure RawPunishMove where
  command : Option String
  startupFrame : Option String
  blockFrame : Option String
deriving DecidableEq, Repr

/-- Startup parse of the window filter (lines 342–344):
`parseInt((move['Start up frame']?.split(' ')[0] || '99').replace('i', '').split('~')[0] || '99')`. -/
def windowStartupParse (raw : Option String) : Option Int :=
  let startupStr := jsStringOr (raw.map (firstToken ' ')) "99"
  let s2 := firstToken '~' (removeFirst 'i' startupStr)
  jsParseInt (jsStringOr (some s2) "99")

/-- One entry of the `punishWindows` table (lines 331–337). -/
structure PunishWindowCfg where
  window : String
  maxFrame : Int
  minFrame : Int
deriving DecidableEq, Repr

/-- The fixed window table: 10f, 12f, 13f, 14f, 15f+ (capped at `maxFrame = 99`). -/
def punishWindows : List PunishWindowCfg :=
  [⟨"10f", 10, 9⟩, ⟨"12f", 12, 11⟩, ⟨"13f", 13, 13⟩, ⟨"14f", 14, 14⟩, ⟨"15f+", 99, 15⟩]

/-- Membership of a parsed startup value in a window's inclusive range. -/
def windowContains (cfg : PunishWindowCfg) (n : Int) : Bool :=
  cfg.minFrame ≤ n && n ≤ cfg.maxFrame

/-- The window filter predicate (line 346); a failed parse (`NaN`) makes both
comparisons false, so the move falls in no window. -/
def inWindow (cfg : PunishWindowCfg) (raw : Option String) : Bool :=
  match windowStartupParse raw with
  | some n => windowContains cfg n
  | none => false

/-- One emitted `optimalPunishes` entry. -/
structure OptimalPunish where
  window : String
  recommendedMoves : List String
  situations : List String
deriving DecidableEq, Repr

/-- `optimalPunishes` (lines 339–360): per window, filter applicable punish
moves, keep up to 3 commands (dropping absent/empty ones, `filter(Boolean)`),
and drop windows whose recommended-move list ends up empty. -/
def mkOptimalPunishes (punishMoves : List RawPunishMove) : List OptimalPunish :=
  (punishWindows.map (fun cfg =>
    let applicable := punishMoves.filter (fun m => inWindow cfg m.startupFrame)
    { window := cfg.window
      recommendedMoves :=
        (((applicable.take 3).map (fun m => m.command)).filterMap id).filter (· ≠ "")
      situations :=
        ["After opponent moves punishable in " ++ cfg.window,
         "When you have " ++ cfg.window ++ " to punish",
         if cfg.window = "15f+" then "Launch punishable moves"
         else "Fast punishes in " ++ cfg.window] : OptimalPunish })).filter
    (fun p => !p.recommendedMoves.isEmpty)

/-- Opponent block-frame parse of the punish-option builder (line 367):
`Math.abs(parseInt(oppMove['Block frame']?.replace(/[+]/g, '') || '10'))`;
an absent or (after `'+'` removal) empty field defaults to `"10"`. -/
def oppBlockAbs (b : Option String) : Option Int :=
  (jsParseInt (jsStringOr (b.map removePlus) "10")).map (fun n => (n.natAbs : Int))

/-- Punishing-move startup parse of the punish-option builder (line 368):
`parseInt(punishMove['Start up frame']?.split(' ')[0] || '10')`. -/
def punishStartupParse (s : Option String) : Option Int :=
  jsParseInt (jsStringOr (s.map (firstToken ' ')) "10")

/-- The `punishWindow` label of a punish option (line 374); `NaN` compares
false everywhere and lands on `"10f"`. -/
def punishWindowLabel (b : Option Int) : String :=
  match b with
  | none => "10f"
  | some v =>
    if 15 ≤ v then "15f+"
    else if 14 ≤ v then "14f"
    else if 13 ≤ v then "13f"
    else if 12 ≤ v then "12f"
    else "10f"

/-- One emitted `punishOptions` entry. -/
structure PunishOptionOut where
  opponentMove : String
  punishMove : String
  punishWindow : String
  frameAdvantage : String
  description : String
deriving DecidableEq, Repr

/-- The `{ Command: "1,1,2" }` default of line 366. -/
def defaultPunishMove : RawPunishMove :=
  { command := some "1,1,2", startupFrame := none, blockFrame := none }

/-- `punishMoves[index % punishMoves.length] || { Command: "1,1,2" }`; on an
empty list the index is `NaN` and the lookup yields the default. -/
def pickPunishMove (punishMoves : List RawPunishMove) (i : Nat) : RawPunishMove :=
  match punishMoves with
  | [] => defaultPunishMove
  | _ => ((punishMoves.get? (i % punishMoves.length)).getD defaultPunishMove)

/-- One `punishOptions` entry (lines 365–377). -/
def mkPunishOption (oppMove pm : RawPunishMove) : PunishOptionOut :=
  let oppBlockFrame := oppBlockAbs oppMove.blockFrame
  let punishStartup := punishStartupParse pm.startupFrame
  let frameAdvantage : Option Int := do
    let b ← oppBlockFrame
    let s ← punishStartup
    pure (b - s)
  { opponentMove := jsStringOr oppMove.command "Unknown move"
    punishMove := jsStringOr pm.command "1,1,2"
    punishWindow := punishWindowLabel oppBlockFrame
    frameAdvantage := jsNumToString frameAdvantage ++ " frames"
    description :=
      "Punish " ++ jsFieldToString oppMove.command ++ " (" ++
      jsFieldToString oppMove.blockFrame ++ " on block) with " ++
      jsFieldToString pm.command ++ " for " ++ jsNumToString frameAdvantage ++
      " frame advantage." }

/-- The full `punishOptions` array: one entry per punishable opponent move,
paired round-robin with the punishing moves. -/
def fallbackPunishOptions (punishableMoves punishMoves : List RawPunishMove) :
    List PunishOptionOut :=
  (List.range punishableMoves.length).map (fun i =>
    mkPunishOption ((punishableMoves.get? i).getD defaultPunishMove)
      (pickPunishMove punishMoves i))

/-! ## The tekkendocs client cache (`tekkendocs-client.ts`)

`fetchCharacterFrameData` runs on the single-threaded event loop: the cache
check (lines 12–16) together with the decision to issue a `fetch` is one
atomic step, and the continuation after the `await` (validation and
`cache.set`, lines 29–48) is another.  An interleaving of concurrent calls
is a list of such steps. -/

/-- The outcome the awaited `fetch`/`response.json()` pipeline delivers. -/
inductive FetchOutcome where
  | networkError (msg : String)
  | response (framesNormal : Option (List TekkenDocsMove))
deriving DecidableEq, Repr

/-- The validation and error wrapping of lines 29–48: a rejected fetch (or
non-ok response) and a body whose `framesNormal` is missing or not an array
both surface as a thrown wrapped `Error`; any present array — empty or not —
is an ordinary success. -/
def resolveFetch (characterId : String) (raw : FetchOutcome) :
    Except String (List TekkenDocsMove) :=
  match raw with
  | .networkError msg =>
    .error ("Failed to fetch frame data for " ++ characterId ++ ": " ++ msg)
  | .response none =>
    .error ("Failed to fetch frame data for " ++ characterId ++ ": Invalid response structure")
  | .response (some frames) => .ok frames

/-- One cache entry: the move list (the consumed part of the cached response)
and its fetch timestamp in milliseconds. -/
structure CacheEntry where
  data : List TekkenDocsMove
  timestamp : Nat
deriving DecidableEq, Repr

/-- The private `cache` map of the client. -/
structure ClientState where
  cache : List (String × CacheEntry)
deriving DecidableEq, Repr

/-- `cacheTTL = 24 * 60 * 60 * 1000`. -/
def cacheTTL : Nat := 24 * 60 * 60 * 1000

/-- The cache key `framedata:t8:${characterId}`. -/
def cacheKey (characterId : String) : String :=
  "framedata:t8:" ++ characterId

/-- `Map.get`. -/
def cacheLookup (st : ClientState) (key : String) : Option CacheEntry :=
  (st.cache.find? (fun p => p.1 = key)).map Prod.snd

/-- `Map.set` (replace any previous binding). -/
def cacheSet (st : ClientState) (key : String) (e : CacheEntry) : ClientState :=
  ⟨(key, e) :: st.cache.filter (fun p => p.1 ≠ key)⟩

/-- The synchronous prefix of `fetchCharacterFrameData` (lines 12–20): a
fresh cache hit returns the cached data; otherwise the caller proceeds to
issue an upstream fetch. -/
def getCheck (st : ClientState) (now : Nat) (characterId : String) :
    Option (List TekkenDocsMove) :=
  match cacheLookup st (cacheKey characterId) with
  | some e => if now - e.timestamp < cacheTTL then some e.data else none
  | none => none

/-- The continuation after the awaited fetch (lines 29–48): validate, cache
on success, propagate the wrapped error otherwise (nothing is cached on
failure). -/
def getResolve (st : ClientState) (now : Nat) (characterId : String)
    (raw : FetchOutcome) : ClientState × Except String (List TekkenDocsMove) :=
  match resolveFetch characterId raw with
  | .ok frames => (cacheSet st (cacheKey characterId) ⟨frames, now⟩, .ok frames)
  | .error e => (st, .error e)

/-- One atomic event-loop step of some caller. -/
inductive CacheEvent where
  | check (caller : Nat) (characterId : String) (now : Nat)
  | resolve (caller : Nat) (characterId : String) (now : Nat) (raw : FetchOutcome)
deriving DecidableEq, Repr

/-- Execute an interleaving of cache events, counting upstream fetches: a
`check` that misses issues one fetch (line 23); a `resolve` runs the
continuation and updates the cache. -/
def execEvents (st : ClientState) (fetchCount : Nat) :
    List CacheEvent → ClientState × Nat
  | [] => (st, fetchCount)
  | .check _ id now :: rest =>
    match getCheck st now id with
    | some _ => execEvents st fetchCount rest
    | none => execEvents st (fetchCount + 1) rest
  | .resolve _ id now raw :: rest =>
    execEvents (getResolve st now id raw).1 fetchCount rest

/-! ## `buildMatchupContext` (`matchup-context.ts` lines 5–115) -/

/-- The special-case display-name table of `toCharacterId`. -/
def specialCases : List (String × String) :=
  [("Devil Jin", "devil-jin"), ("Sergei Dragunov", "dragunov"),
   ("Jun Kazama", "jun"), ("Jin Kazama", "jin"), ("Steve Fox", "steve"),
   ("Ling Xiaoyu", "xiaoyu"), ("Marshall Law", "law"),
   ("Nina Williams", "nina"), ("Anna Williams", "anna"),
   ("Armor King", "armor-king"),
   ("Azucena Milagros Ortiz Castillo", "azucena"), ("Lee Chaolan", "lee"),
   ("Clive Rosfield", "clive"), ("Eddy Gordo", "eddy"),
   ("Heihachi Mishima", "heihachi"), ("Lidia Sobieska", "lidia")]

/-- The default transform: lowercase, space to hyphen, strip anything not in
`[a-z0-9-]`. -/
def defaultCharId (displayName : String) : String :=
  ⟨(((displayName.data.map Char.toLower).map
      (fun c => if c = ' ' then '-' else c)).filter
      (fun c => ('a' ≤ c && c ≤ 'z') || c.isDigit || c = '-'))⟩

/-- `toCharacterId(displayName)`. -/
def toCharacterId (displayName : String) : String :=
  match specialCases.find? (fun p => p.1 = displayName) with
  | some p => p.2
  | none => defaultCharId displayName

/-- The response object built around local sample data (lines 18–24 and
28–35), and also the shape of the fallback data of lines 53–59. -/
def localResponse (charId : String) (frames : List TekkenDocsMove) :
    FrameDataResponse :=
  { characterName := charId, editUrl := "https://tekkendocs.com", game := "T8",
    framesNormal := frames, stances := [] }

/-- `buildMatchupContext(playerCharacter, opponentCharacter)`.

`sample` is the bundled `sample-frame-data.json` lookup and `fetch` the
outcome of `tekkenDocsClient.fetchCharacterFrameData` for a given character
id.  The function is total: the only `await` that can reject sits inside the
`try`/`catch` of lines 42–62, whose `catch` substitutes the empty fallback
response for every side that had no local data, so no failure ever escapes. -/
def buildMatchupContext (sample : String → Option (List TekkenDocsMove))
    (fetch : String → Except String FrameDataResponse)
    (playerCharacter opponentCharacter : String) : MatchupContext :=
  let playerCharId := toCharacterId playerCharacter
  let opponentCharId := toCharacterId opponentCharacter
  let playerLocal := (sample playerCharId).map (localResponse playerCharId)
  let opponentLocal := (sample opponentCharId).map (localResponse opponentCharId)
  -- `Promise.all` of lines 43–46: a side with local data is an already
  -- resolved promise; the `catch` of lines 50–62 maps any rejection to the
  -- fallback data (built with `playerCharId`) for each side still unset.
  let results : FrameDataResponse × FrameDataResponse :=
    match playerLocal, opponentLocal with
    | some p, some o => (p, o)
    | _, _ =>
      let pRes := match playerLocal with
        | some p => Except.ok p
        | none => fetch playerCharId
      let oRes := match opponentLocal with
        | some o => Except.ok o
        | none => fetch opponentCharId
      match pRes, oRes with
      | .ok p, .ok o => (p, o)
      | _, _ =>
        (playerLocal.getD (localResponse playerCharId []),
         opponentLocal.getD (localResponse playerCharId []))
  let playerData := results.1
  let opponentData := results.2
  { playerCharacter := playerCharacter
    opponentCharacter := opponentCharacter
    playerMoves := playerData.framesNormal
    opponentMoves := opponentData.framesNormal
    playerKeyMoves :=
      if 0 < playerData.framesNormal.length then
        identifyKeyMoves playerData.framesNormal
      else []
    opponentPunishableMoves :=
      if 0 < opponentData.framesNormal.length then
        identifyPunishableMoves opponentData.framesNormal
      else [] }

/-! ## Spec-side reference definitions -/

/-- Modelled from the spec's words (§4.1, claim C6): strip one leading sign
and require the remainder to parse entirely as a decimal integer (no
trailing characters).  This is the spec's characterization of `Numeric`,
kept separate from the source-derived `parseFrameData` so the two can be
compared. -/
def specEntireInt (t : String) : Option Int :=
  match t.data with
  | '+' :: rest =>
    if rest ≠ [] ∧ rest.all Char.isDigit then some (digitsVal rest) else none
  | '-' :: rest =>
    if rest ≠ [] ∧ rest.all Char.isDigit then some (-(digitsVal rest : Int)) else none
  | l =>
    if l ≠ [] ∧ l.all Char.isDigit then some (digitsVal l) else none

/-! ## Sorting lemmas -/

theorem jsInsert_perm (cmp : α → α → Int) (x : α) (l : List α) :
    (jsInsert cmp x l).Perm (x :: l) := by
  induction l with
  | nil => simp [jsInsert]
  | cons y ys ih =>
    by_cases h : 0 < cmp y x
    · simp [jsInsert, h]
    · simp only [jsInsert, h, if_neg, ite_false]
      exact (ih.cons y).trans (List.Perm.swap x y ys)

theorem mem_jsInsert (cmp : α → α → Int) {x a : α} {l : List α} :
    a ∈ jsInsert cmp x l ↔ a = x ∨ a ∈ l := by
  rw [(jsInsert_perm cmp x l).mem_iff]
  simp

theorem foldl_jsInsert_perm (cmp : α → α → Int) :
    ∀ (l acc : List α), (l.foldl (fun acc x => jsInsert cmp x acc) acc).Perm (acc ++ l)
  | [], acc => by simp
  | x :: xs, acc => by
    simpa using (foldl_jsInsert_perm cmp xs (jsInsert cmp x acc)).trans
      ((((jsInsert_perm cmp x acc).append_right xs).trans (List.perm_middle.symm)))

theorem jsSort_perm (cmp : α → α → Int) (l : List α) : (jsSort cmp l).Perm l := by
  simpa using foldl_jsInsert_perm cmp l []

theorem jsInsert_pairwise (cmp : α → α → Int) {S : α → Prop}
    (htot : ∀ a b, cmp a b ≤ 0 ∨ cmp b a ≤ 0)
    (htrans : ∀ a b c, S a → S b → S c → cmp a b ≤ 0 → cmp b c ≤ 0 → cmp a c ≤ 0)
    {x : α} {l : List α} (hx : S x) (hl : ∀ a ∈ l, S a)
    (hp : l.Pairwise (fun a b => cmp a b ≤ 0)) :
    (jsInsert cmp x l).Pairwise (fun a b => cmp a b ≤ 0) := by
  induction l with
  | nil => simp [jsInsert]
  | cons y ys ih =>
    rcases List.pairwise_cons.mp hp with ⟨hy, hys⟩
    by_cases h : 0 < cmp y x
    · have hxy : cmp x y ≤ 0 := by
        rcases htot x y with h' | h'
        · exact h'
        · omega
      simp only [jsInsert, h, ite_true]
      refine List.pairwise_cons.mpr ⟨?_, hp⟩
      intro z hz
      rcases List.mem_cons.mp hz with rfl | hz
      · exact hxy
      · exact htrans x y z hx (hl y (by simp)) (hl z (by simp [hz])) hxy (hy z hz)
    · simp only [jsInsert, h, ite_false]
      refine List.pairwise_cons.mpr ⟨?_, ih (fun a ha => hl a (by simp [ha])) hys⟩
      intro z hz
      rcases (mem_jsInsert cmp).mp hz with rfl | hz
      · omega
      · exact hy z hz

theorem jsSort_pairwise (cmp : α → α → Int) {S : α → Prop}
    (htot : ∀ a b, cmp a b ≤ 0 ∨ cmp b a ≤ 0)
    (htrans : ∀ a b c, S a → S b → S c → cmp a b ≤ 0 → cmp b c ≤ 0 → cmp a c ≤ 0) :
    ∀ (l acc : List α), (∀ a ∈ l, S a) → (∀ a ∈ acc, S a) →
      acc.Pairwise (fun a b => cmp a b ≤ 0) →
      (l.foldl (fun acc x => jsInsert cmp x acc) acc).Pairwise (fun a b => cmp a b ≤ 0)
  | [], _, _, _, hacc => hacc
  | x :: xs, acc, hl, haccS, hacc => by
    refine jsSort_pairwise cmp htot htrans xs (jsInsert cmp x acc)
      (fun a ha => hl a (by simp [ha])) ?_ ?_
    · intro a ha
      rcases (mem_jsInsert cmp).mp ha with rfl | ha
      · exact hl a (by simp)
      · exact haccS a ha
    · exact jsInsert_pairwise cmp htot htrans (hl x (by simp)) haccS hacc

/-- `jsInsert` appends at the end when nothing orders strictly after `x`. -/
theorem jsInsert_eq_append (cmp : α → α → Int) {x : α} {l : List α}
    (hpass : ∀ y ∈ l, cmp y x ≤ 0) : jsInsert cmp x l = l ++ [x] := by
  induction l with
  | nil => simp [jsInsert]
  | cons y ys ih =>
    have : ¬ 0 < cmp y x := by have := hpass y (by simp); omega
    simp only [jsInsert, this, ite_false, List.cons_append, List.cons.injEq, true_and]
    exact ih (fun z hz => hpass z (by simp [hz]))

/-- Inserting an element the filter rejects leaves the filtered list alone. -/
theorem filter_jsInsert_of_neg (cmp : α → α → Int) (p : α → Bool) {x : α}
    (hx : p x = false) (l : List α) :
    (jsInsert cmp x l).filter p = l.filter p := by
  induction l with
  | nil => simp [jsInsert, hx]
  | cons y ys ih =>
    by_cases h : 0 < cmp y x
    · simp [jsInsert, h, hx]
    · simp [jsInsert, h, List.filter_cons, ih]

/-! ## Facts about the key-move comparator -/

/-- The sort key the comparator inspects: launcher flag and parsed block. -/
def moveKey (m : TekkenDocsMove) : Bool × Int :=
  (isLauncher m, blockVal m)

theorem keyMoveCmp_total (a b : TekkenDocsMove) :
    keyMoveCmp a b ≤ 0 ∨ keyMoveCmp b a ≤ 0 := by
  unfold keyMoveCmp
  cases isLauncher a <;> cases isLauncher b <;>
    simp <;>
    cases parseBlockNum a <;> cases parseBlockNum b <;> simp <;> omega

/-- On moves whose block value parses, the comparator is the launcher-first,
block-descending key comparison. -/
theorem keyMoveCmp_eq_keys {a b : TekkenDocsMove}
    (ha : (parseBlockNum a).isSome = true) (hb : (parseBlockNum b).isSome = true) :
    keyMoveCmp a b =
      if isLauncher a && !isLauncher b then -1
      else if !isLauncher a && isLauncher b then 1
      else blockVal b - blockVal a := by
  rcases Option.isSome_iff_exists.mp ha with ⟨x, hx⟩
  rcases Option.isSome_iff_exists.mp hb with ⟨y, hy⟩
  unfold keyMoveCmp blockVal
  rw [hx, hy]
  simp

theorem keyMoveCmp_trans {a b c : TekkenDocsMove}
    (ha : (parseBlockNum a).isSome = true) (hb : (parseBlockNum b).isSome = true)
    (hc : (parseBlockNum c).isSome = true)
    (hab : keyMoveCmp a b ≤ 0) (hbc : keyMoveCmp b c ≤ 0) : keyMoveCmp a c ≤ 0 := by
  rw [keyMoveCmp_eq_keys ha hb] at hab
  rw [keyMoveCmp_eq_keys hb hc] at hbc
  rw [keyMoveCmp_eq_keys ha hc]
  cases hla : isLauncher a <;> cases hlb : isLauncher b <;> cases hlc : isLauncher c <;>
    simp_all <;> omega

theorem keyMoveCmp_eq_zero_of_key_eq {a b : TekkenDocsMove}
    (ha : (parseBlockNum a).isSome = true) (hb : (parseBlockNum b).isSome = true)
    (hk : moveKey a = moveKey b) : keyMoveCmp a b = 0 := by
  have h1 : isLauncher a = isLauncher b := congrArg Prod.fst hk
  have h2 : blockVal a = blockVal b := congrArg Prod.snd hk
  rw [keyMoveCmp_eq_keys ha hb, h1, h2]
  cases isLauncher b <;> simp

theorem keyMoveCmp_congr_right {y z x : TekkenDocsMove}
    (hy : (parseBlockNum y).isSome = true) (hz : (parseBlockNum z).isSome = true)
    (hx : (parseBlockNum x).isSome = true) (hk : moveKey z = moveKey x) :
    keyMoveCmp y z = keyMoveCmp y x := by
  have h1 : isLauncher z = isLauncher x := congrArg Prod.fst hk
  have h2 : blockVal z = blockVal x := congrArg Prod.snd hk
  rw [keyMoveCmp_eq_keys hy hz, keyMoveCmp_eq_keys hy hx, h1, h2]

/-- A non-launcher never sorts strictly after a launcher-flag holder… more
precisely: if `x` is not a launcher, anything strictly before it is not a
launcher either. -/
theorem launcher_of_cmp_pos {x y : TekkenDocsMove} (hx : isLauncher x = false)
    (h : 0 < keyMoveCmp y x) : isLauncher y = false := by
  cases hyL : isLauncher y
  · rfl
  · exfalso
    unfold keyMoveCmp at h
    rw [hx, hyL] at h
    simp at h

theorem launcher_of_cmp_le {x y : TekkenDocsMove} (hx : isLauncher x = true)
    (h : keyMoveCmp y x ≤ 0) : isLauncher y = true := by
  cases hyL : isLauncher y
  · exfalso
    unfold keyMoveCmp at h
    rw [hx, hyL] at h
    simp at h
  · rfl

/-- If `x` is not a launcher and its block value does not parse, the
comparator never orders anything strictly after `x`. -/
theorem keyMoveCmp_le_of_nonnum {x : TekkenDocsMove} (hxB : parseBlockNum x = none)
    (hxL : isLauncher x = false) (y : TekkenDocsMove) : keyMoveCmp y x ≤ 0 := by
  unfold keyMoveCmp
  rw [hxB, hxL]
  cases isLauncher y <;> simp

/-- Insertion preserves the launchers-before-non-launchers invariant. -/
theorem jsInsert_launcher {x : TekkenDocsMove} : ∀ {l : List TekkenDocsMove},
    l.Pairwise (fun a b => isLauncher b = true → isLauncher a = true) →
    (jsInsert keyMoveCmp x l).Pairwise
      (fun a b => isLauncher b = true → isLauncher a = true) := by
  intro l hp
  induction l with
  | nil => simp [jsInsert]
  | cons y ys ih =>
    rcases List.pairwise_cons.mp hp with ⟨hy, hys⟩
    by_cases h : 0 < keyMoveCmp y x
    · simp only [jsInsert, h, ite_true]
      refine List.pairwise_cons.mpr ⟨?_, hp⟩
      intro z hz hzL
      cases hxL : isLauncher x
      · exfalso
        have hyL : isLauncher y = false := launcher_of_cmp_pos hxL h
        rcases List.mem_cons.mp hz with rfl | hz
        · rw [hyL] at hzL; simp at hzL
        · rw [hy z hz hzL] at hyL; simp at hyL
      · rfl
    · simp only [jsInsert, h, ite_false]
      refine List.pairwise_cons.mpr ⟨?_, ih hys⟩
      intro z hz
      rcases (mem_jsInsert keyMoveCmp).mp hz with rfl | hz
      · intro hzL
        exact launcher_of_cmp_le hzL (by omega)
      · exact hy z hz

/-- The sort keeps every launcher before every non-launcher. -/
theorem foldl_jsInsert_launcher :
    ∀ (l acc : List TekkenDocsMove),
      acc.Pairwise (fun a b => isLauncher b = true → isLauncher a = true) →
      (l.foldl (fun acc x => jsInsert keyMoveCmp x acc) acc).Pairwise
        (fun a b => isLauncher b = true → isLauncher a = true)
  | [], _, hacc => hacc
  | x :: xs, acc, hacc =>
    foldl_jsInsert_launcher xs (jsInsert keyMoveCmp x acc) (jsInsert_launcher hacc)

/-- Non-launcher moves with unparseable block value: the filter selecting
them commutes with the sort (they are appended at the end of the prefix
sorted so far and never jumped over). -/
def nonNumNonLauncher (m : TekkenDocsMove) : Bool :=
  !isLauncher m && (parseBlockNum m).isNone

theorem foldl_filter_nonNumNonLauncher :
    ∀ (l acc : List TekkenDocsMove),
      ((l.foldl (fun acc x => jsInsert keyMoveCmp x acc) acc).filter nonNumNonLauncher)
        = acc.filter nonNumNonLauncher ++ l.filter nonNumNonLauncher
  | [], acc => by simp
  | x :: xs, acc => by
    rw [List.foldl_cons, foldl_filter_nonNumNonLauncher xs (jsInsert keyMoveCmp x acc)]
    by_cases hx : nonNumNonLauncher x = true
    · have hxL : isLauncher x = false := by
        have := hx
        unfold nonNumNonLauncher at this
        cases h : isLauncher x
        · rfl
        · rw [h] at this; simp at this
      have hxB : parseBlockNum x = none := by
        have := hx
        unfold nonNumNonLauncher at this
        cases h : parseBlockNum x
        · rfl
        · rw [h] at this; simp at this
      rw [jsInsert_eq_append keyMoveCmp (fun y _ => keyMoveCmp_le_of_nonnum hxB hxL y)]
      simp [List.filter_append, List.filter_cons, hx]
    · rw [filter_jsInsert_of_neg keyMoveCmp nonNumNonLauncher
        (Bool.not_eq_true _ ▸ hx) acc]
      simp [List.filter_cons, hx]

/-- Inserting a move whose key is `k` into a sorted all-numeric prefix puts
it after every move of the prefix with the same key. -/
theorem filter_key_jsInsert {x : TekkenDocsMove} {k : Bool × Int}
    (hx : (parseBlockNum x).isSome = true) (hk : moveKey x = k) :
    ∀ {l : List TekkenDocsMove}, (∀ a ∈ l, (parseBlockNum a).isSome = true) →
      l.Pairwise (fun a b => keyMoveCmp a b ≤ 0) →
      (jsInsert keyMoveCmp x l).filter (fun m => decide (moveKey m = k))
        = l.filter (fun m => decide (moveKey m = k)) ++ [x] := by
  intro l
  induction l with
  | nil => intro _ _; simp [jsInsert, hk]
  | cons y ys ih =>
    intro hS hp
    rcases List.pairwise_cons.mp hp with ⟨hy, hys⟩
    have hyS : (parseBlockNum y).isSome = true := hS y (by simp)
    by_cases h : 0 < keyMoveCmp y x
    · simp only [jsInsert, h, ite_true]
      have hyk : ¬ moveKey y = k := by
        intro hyk
        have : keyMoveCmp y x = 0 :=
          keyMoveCmp_eq_zero_of_key_eq hyS hx (hk ▸ hyk)
        omega
      have hzs : ∀ z ∈ ys, ¬ moveKey z = k := by
        intro z hz hzk
        have hzS : (parseBlockNum z).isSome = true := hS z (by simp [hz])
        have : keyMoveCmp y z = keyMoveCmp y x :=
          keyMoveCmp_congr_right hyS hzS hx (hk ▸ hzk)
        have := hy z hz
        omega
      have hysf : ys.filter (fun m => decide (moveKey m = k)) = [] := by
        rw [List.filter_eq_nil_iff]
        intro z hz
        simpa using hzs z hz
      simp [List.filter_cons, hk, hyk, hysf]
    · simp only [jsInsert, h, ite_false]
      rw [List.filter_cons, List.filter_cons,
        ih (fun a ha => hS a (by simp [ha])) hys]
      by_cases hyk : moveKey y = k <;> simp [hyk]

/-- Stability of the sort on all-numeric lists: for every key value, the
moves holding that key come out in their original order. -/
theorem foldl_key_stable (k : Bool × Int) :
    ∀ (l acc : List TekkenDocsMove),
      (∀ a ∈ l, (parseBlockNum a).isSome = true) →
      (∀ a ∈ acc, (parseBlockNum a).isSome = true) →
      acc.Pairwise (fun a b => keyMoveCmp a b ≤ 0) →
      ((l.foldl (fun acc x => jsInsert keyMoveCmp x acc) acc).filter
          (fun m => decide (moveKey m = k)))
        = acc.filter (fun m => decide (moveKey m = k))
          ++ l.filter (fun m => decide (moveKey m = k))
  | [], _, _, _, _ => by simp
  | x :: xs, acc, hl, haccS, hacc => by
    have hxS : (parseBlockNum x).isSome = true := hl x (by simp)
    have haccS' : ∀ a ∈ jsInsert keyMoveCmp x acc, (parseBlockNum a).isSome = true := by
      intro a ha
      rcases (mem_jsInsert keyMoveCmp).mp ha with rfl | ha
      · exact hxS
      · exact haccS a ha
    have hacc' : (jsInsert keyMoveCmp x acc).Pairwise (fun a b => keyMoveCmp a b ≤ 0) :=
      jsInsert_pairwise keyMoveCmp keyMoveCmp_total
        (fun a b c => keyMoveCmp_trans) hxS haccS hacc
    rw [List.foldl_cons,
      foldl_key_stable k xs (jsInsert keyMoveCmp x acc)
        (fun a ha => hl a (by simp [ha])) haccS' hacc']
    by_cases hk : moveKey x = k
    · rw [filter_key_jsInsert hxS hk haccS hacc]
      simp [List.filter_cons, hk]
    · rw [filter_jsInsert_of_neg keyMoveCmp _ (decide_eq_false hk) acc]
      simp [List.filter_cons, hk]

/-! ## Facts about the integer parser -/

theorem not_whitespace_of_isDigit {c : Char} (h : c.isDigit = true) :
    c.isWhitespace = false := by
  cases hw : c.isWhitespace
  · rfl
  · exfalso
    have hw' := hw
    simp only [Char.isWhitespace, Bool.or_eq_true, decide_eq_true_eq] at hw'
    rcases hw' with ((rfl | rfl) | rfl) | rfl <;> simp [Char.isDigit] at h

theorem ne_dash_of_isDigit {c : Char} (h : c.isDigit = true) : c ≠ '-' := by
  rintro rfl; simp [Char.isDigit] at h

theorem ne_plus_of_isDigit {c : Char} (h : c.isDigit = true) : c ≠ '+' := by
  rintro rfl; simp [Char.isDigit] at h

theorem ne_x_of_isDigit {c : Char} (h : c.isDigit = true) : c ≠ 'x' ∧ c ≠ 'X' := by
  constructor <;> rintro rfl <;> simp [Char.isDigit] at h

theorem takeWhile_all_eq {p : Char → Bool} {l : List Char} (h : ∀ a ∈ l, p a = true) :
    l.takeWhile p = l := by
  induction l with
  | nil => rfl
  | cons c cs ih =>
    rw [List.takeWhile_cons, if_pos (h c (by simp))]
    rw [ih (fun a ha => h a (by simp [ha]))]

/-- `parseInt` on an all-digit nonempty list is the digit value. -/
theorem jsParseIntList_digits {ds : List Char} (hne : ds ≠ [])
    (hd : ∀ a ∈ ds, a.isDigit = true) :
    jsParseIntList ds = some ((digitsVal ds : Int)) := by
  rcases ds with _ | ⟨c, rest⟩
  · exact absurd rfl hne
  · have hc : c.isDigit = true := hd c (by simp)
    have hdw : (c :: rest).dropWhile Char.isWhitespace = c :: rest := by
      rw [List.dropWhile_cons, if_neg (by simp [not_whitespace_of_isDigit hc])]
    have hsgn : (c :: rest).head? ≠ some '-' := by
      simp [ne_dash_of_isDigit hc]
    have hplus : (c :: rest).head? ≠ some '+' := by
      simp [ne_plus_of_isDigit hc]
    have hnohex : ¬((c :: rest).head? = some '0' ∧
        ((c :: rest).tail.head? = some 'x' ∨ (c :: rest).tail.head? = some 'X')) := by
      rintro ⟨-, hx⟩
      rcases rest with _ | ⟨c', rest'⟩
      · simp at hx
      · have hc' : c'.isDigit = true := hd c' (by simp)
        rcases hx with hx | hx <;> simp at hx <;>
          [exact (ne_x_of_isDigit hc').1 hx; exact (ne_x_of_isDigit hc').2 hx]
    unfold jsParseIntList
    rw [hdw]
    simp only [if_neg hsgn, if_neg (by tauto : ¬((c :: rest).head? = some '-' ∨ (c :: rest).head? = some '+')), if_neg hnohex]
    rw [takeWhile_all_eq hd]
    simp

/-- `parseInt` on `'-'` followed by an all-digit nonempty list is the
negated digit value. -/
theorem jsParseIntList_neg_digits {ds : List Char} (hne : ds ≠ [])
    (hd : ∀ a ∈ ds, a.isDigit = true) :
    jsParseIntList ('-' :: ds) = some (-(digitsVal ds : Int)) := by
  have hdw : ('-' :: ds).dropWhile Char.isWhitespace = '-' :: ds := by
    rw [List.dropWhile_cons, if_neg (by decide)]
  have hnohex : ¬(ds.head? = some '0' ∧ (ds[1]? = some 'x' ∨ ds[1]? = some 'X')) := by
    rintro ⟨-, hx⟩
    rcases ds with _ | ⟨c, rest⟩
    · simp at hx
    · rcases rest with _ | ⟨c', rest'⟩
      · simp at hx
      · have hc' : c'.isDigit = true := hd c' (by simp)
        rcases hx with hx | hx <;> simp at hx <;>
          [exact (ne_x_of_isDigit hc').1 hx; exact (ne_x_of_isDigit hc').2 hx]
  unfold jsParseIntList
  rw [hdw]
  simp [hnohex, takeWhile_all_eq hd, hne]

/-- A list of digit characters contains no `'+'`. -/
theorem filter_ne_plus_of_digits {ds : List Char} (hd : ∀ a ∈ ds, a.isDigit = true) :
    ds.filter (· ≠ '+') = ds :=
  List.filter_eq_self.mpr (fun a ha => by
    simpa using ne_plus_of_isDigit (hd a ha))

/-- `parseInt` of the empty string misses. -/
theorem jsParseIntList_nil : jsParseIntList [] = none := by decide

/-! ## Facts about the punishable comparator -/

theorem punishCmp_total (a b : TekkenDocsMove) :
    punishCmp a b ≤ 0 ∨ punishCmp b a ≤ 0 := by
  unfold punishCmp; omega

theorem punishCmp_trans (a b c : TekkenDocsMove)
    (hab : punishCmp a b ≤ 0) (hbc : punishCmp b c ≤ 0) : punishCmp a c ≤ 0 := by
  unfold punishCmp at *; omega

/-! ## Example moves used to instantiate the theorems -/

/-- A non-launcher fast poke whose block text does not parse. -/
def mvKnd : TekkenDocsMove := ⟨0, "a", "m", "20", "10", "KND", "0", "0", ""⟩

/-- A non-launcher move that is plus on block. -/
def mvPlus5 : TekkenDocsMove := ⟨0, "b", "m", "20", "15", "+5", "0", "0", ""⟩

/-- A non-launcher move at `-2` on block with a fast startup. -/
def mvMinus2 : TekkenDocsMove := ⟨0, "c", "m", "12", "10", "-2", "0", "0", ""⟩

/-- A punishable move at `-12` on block. -/
def mvMinus12 : TekkenDocsMove := ⟨0, "d2", "m", "17", "20", "-12", "0", "0", ""⟩

/-- A heavily punishable move at `-31` on block. -/
def mvMinus31 : TekkenDocsMove := ⟨0, "db34", "m", "30", "24", "-31", "0", "0", ""⟩

/-- A just-punishable move at `-10` on block. -/
def mvMinus10 : TekkenDocsMove := ⟨0, "jab", "m", "10", "10", "-10", "0", "0", ""⟩

/-- A safe move at `-9` on block. -/
def mvMinus9 : TekkenDocsMove := ⟨0, "safe", "m", "10", "12", "-9", "0", "0", ""⟩

/-- A launcher (its `hit` text contains `Launch`) at `-13` on block. -/
def mvLauncher : TekkenDocsMove := ⟨0, "uf4", "m", "23", "15", "-13", "Launch", "0", ""⟩

/-! ## Claim C6 — what `Numeric` means -/

/-- C6, counterexample: the claim says `Numeric(n)` holds iff the
sign-stripped text parses *entirely* as an integer.  `"17-18"` does not
(trailing `"-18"` remains), yet `parseFrameData` classifies it as
`Numeric(17)`: `parseInt` only parses the maximal leading prefix. -/
theorem C6_counterexample :
    parseFrameData "17-18" = FrameValue.num 17 ∧ specEntireInt "17-18" = none := by
  decide

/-- C6, amended: if the text, after stripping a leading sign, parses
entirely as an integer, then `parseFrameData` returns that `Numeric` value
(full consumption is sufficient); but it is not necessary — trailing
characters are ignored, e.g. `parseFrameData "17-18" = Numeric 17`.  An
input is never classified as both `Numeric` and non-`Numeric` (the result
is a single tagged value). -/
theorem C6_numeric_prefix :
    (∀ (t : String) (n : Int), specEntireInt t = some n →
      parseFrameData t = FrameValue.num n) ∧
    parseFrameData "17-18" = FrameValue.num 17 ∧
    (∀ (t : String) (n : Int) (s : String),
      parseFrameData t = FrameValue.num n → parseFrameData t ≠ FrameValue.str s) := by
  refine ⟨?_, by decide, ?_⟩
  · intro t n h
    unfold specEntireInt at h
    split at h
    case _ rest heq =>
      split_ifs at h with hc
      rcases hc with ⟨hne, hall⟩
      have hd : ∀ a ∈ rest, a.isDigit = true := fun a ha => List.all_eq_true.mp hall a ha
      have hn : ((digitsVal rest : Int)) = n := Option.some.inj h
      have hfilter : t.data.filter (· ≠ '+') = rest := by
        rw [heq, List.filter_cons, if_neg (by decide), filter_ne_plus_of_digits hd]
      simp only [parseFrameData, jsParseInt, removePlus]
      rw [hfilter, jsParseIntList_digits hne hd]
      exact hn ▸ rfl
    case _ rest heq =>
      split_ifs at h with hc
      rcases hc with ⟨hne, hall⟩
      have hd : ∀ a ∈ rest, a.isDigit = true := fun a ha => List.all_eq_true.mp hall a ha
      have hn : (-(digitsVal rest : Int)) = n := Option.some.inj h
      have hfilter : t.data.filter (· ≠ '+') = '-' :: rest := by
        rw [heq, List.filter_cons, if_pos (by decide), filter_ne_plus_of_digits hd]
      simp only [parseFrameData, jsParseInt, removePlus]
      rw [hfilter, jsParseIntList_neg_digits hne hd]
      exact hn ▸ rfl
    case _ heq1 heq2 =>
      split_ifs at h with hc
      rcases hc with ⟨hne, hall⟩
      have hd : ∀ a ∈ t.data, a.isDigit = true := fun a ha => List.all_eq_true.mp hall a ha
      have hn : ((digitsVal t.data : Int)) = n := Option.some.inj h
      have hfilter : t.data.filter (· ≠ '+') = t.data := filter_ne_plus_of_digits hd
      simp only [parseFrameData, jsParseInt, removePlus]
      rw [hfilter, jsParseIntList_digits hne hd]
      exact hn ▸ rfl
  · intro t n s h1 h2
    rw [h1] at h2
    exact FrameValue.noConfusion h2

/-- C6, witness: `"+11"` parses entirely after stripping its sign, and the
theorem yields `Numeric 11` for it. -/
theorem C6_witness :
    specEntireInt "+11" = some 11 ∧ parseFrameData "+11" = FrameValue.num 11 :=
  ⟨by decide, C6_numeric_prefix.1 "+11" 11 (by decide)⟩

/-! ## Claim C7 — the parser's reference examples -/

/-- C7, counterexample: the spec's example says `parse("Launch")` is
`Outcome("launch")` with a lowercased tag; the source returns the raw
string unchanged (`"Launch"`, capital `L`) — there is no normalization and
no separate `Outcome`/`Unknown` representation. -/
theorem C7_counterexample :
    parseFrameData "Launch" = FrameValue.str "Launch" ∧
    FrameValue.str "Launch" ≠ FrameValue.str "launch" := by
  decide

/-- C7, amended: the numeric examples hold as claimed; non-numeric inputs
come back as the raw string itself, so `parse("Launch")` is the unchanged
string `"Launch"` (not a lowercased tag) and `parse("")` is the empty
string (there is no distinct `Unknown` value). -/
theorem C7_parse_examples :
    parseFrameData "+11" = FrameValue.num 11 ∧
    parseFrameData "-31" = FrameValue.num (-31) ∧
    parseFrameData "Launch" = FrameValue.str "Launch" ∧
    parseFrameData "" = FrameValue.str "" ∧
    parseFrameData "17-18" = FrameValue.num 17 := by
  decide

/-! ## Claim C10 — `isSafe` and the punishable predicate partition -/

/-- C10: `isSafe` is true exactly when the block text parses to a number
`≥ -9`, and on any move whose block text parses, `isSafe` is false exactly
when `identifyPunishableMoves`' inclusion predicate holds (`n ≤ -10`) —
the two predicates partition numeric-block moves. -/
theorem C10_isSafe_partition :
    (∀ s : String, isSafe s = true ↔
      ∃ n : Int, parseFrameData s = FrameValue.num n ∧ -9 ≤ n) ∧
    (∀ (m : TekkenDocsMove) (n : Int), parseBlockNum m = some n →
      (isSafe m.block = false ↔ isPunishable m = true)) := by
  constructor
  · intro s
    unfold isSafe
    cases h : parseFrameData s with
    | num k => simp
    | str t => simp
  · intro m n h
    have hpf : parseFrameData m.block = FrameValue.num n := by
      unfold parseFrameData
      unfold parseBlockNum at h
      rw [h]
    unfold isSafe isPunishable
    rw [hpf, h]
    simp only [decide_eq_false_iff_not, not_le, decide_eq_true_eq]
    omega

/-- C10, witness: the partition at a concrete `-12`-on-block move. -/
theorem C10_witness :
    parseBlockNum mvMinus12 = some (-12) ∧
    (isSafe mvMinus12.block = false ↔ isPunishable mvMinus12 = true) :=
  ⟨by decide, C10_isSafe_partition.2 mvMinus12 (-12) (by decide)⟩

/-! ## Claim C3 — empty move lists are not a distinct error -/

/-- C3, counterexample: a structurally valid response whose `framesNormal`
is the empty array passes validation, is cached, and is returned as an
ordinary success — there is no `DataEmpty` failure anywhere in the client. -/
theorem C3_counterexample :
    getResolve ⟨[]⟩ 5 "kazuya" (FetchOutcome.response (some []))
      = (⟨[("framedata:t8:kazuya", ⟨[], 5⟩)]⟩, Except.ok []) := by
  rfl

/-- C3, amended: a present `framesNormal` array — zero-length included — is
cached and returned as an ordinary success; the only failures are the
single wrapped fetch error (network/HTTP) and the invalid-structure error,
with no `DataEmpty` distinction. -/
theorem C3_empty_is_success :
    (∀ (st : ClientState) (now : Nat) (id : String),
      getResolve st now id (FetchOutcome.response (some []))
        = (cacheSet st (cacheKey id) ⟨[], now⟩, Except.ok [])) ∧
    (∀ (id : String) (frames : List TekkenDocsMove),
      resolveFetch id (FetchOutcome.response (some frames)) = Except.ok frames) ∧
    (∀ (id msg : String),
      resolveFetch id (FetchOutcome.networkError msg)
        = Except.error ("Failed to fetch frame data for " ++ id ++ ": " ++ msg)) ∧
    (∀ id : String,
      resolveFetch id (FetchOutcome.response none)
        = Except.error
            ("Failed to fetch frame data for " ++ id ++ ": Invalid response structure")) :=
  ⟨fun _ _ _ => rfl, fun _ _ => rfl, fun _ _ => rfl, fun _ => rfl⟩

/-! ## Claim C2 — no request de-duplication -/

/-- Checks against a state in which the key misses keep missing (the cache
is only written by `resolve` steps), each issuing one fetch. -/
theorem execEvents_replicate_miss {st : ClientState} {id : String} {t : Nat}
    (h : getCheck st t id = none) :
    ∀ (k c : Nat),
      execEvents st c (List.replicate k (CacheEvent.check 0 id t)) = (st, c + k)
  | 0, c => by simp [execEvents]
  | k + 1, c => by
    rw [List.replicate_succ]
    show (match getCheck st t id with
      | some _ => execEvents st c (List.replicate k (CacheEvent.check 0 id t))
      | none => execEvents st (c + 1) (List.replicate k (CacheEvent.check 0 id t)))
      = (st, c + (k + 1))
    rw [h, execEvents_replicate_miss h k (c + 1)]
    exact congrArg (Prod.mk st) (by omega)

/-- C2, counterexample: two concurrent callers for `"kazuya"`, both checking
the cache before the first fetch resolves, issue **two** upstream fetches —
the client state has no in-flight map, so the second miss starts its own
fetch.  The claim requires exactly one. -/
theorem C2_counterexample :
    (execEvents ⟨[]⟩ 0
      [CacheEvent.check 1 "kazuya" 0, CacheEvent.check 2 "kazuya" 0,
       CacheEvent.resolve 1 "kazuya" 50 (FetchOutcome.response (some [])),
       CacheEvent.resolve 2 "kazuya" 60 (FetchOutcome.response (some []))]).2 = 2 := by
  rfl

/-- C2, amended: there is no de-duplication.  `k` concurrent callers whose
cache checks all run before any fetch resolution issue `k` upstream fetches
(one each); only a caller arriving after a successful resolution, within
the TTL, is served from the cache without a further fetch. -/
theorem C2_no_dedup :
    ∀ (k : Nat) (id : String) (t : Nat),
      (execEvents ⟨[]⟩ 0 (List.replicate k (CacheEvent.check 0 id t))).2 = k ∧
      (∀ (d : List TekkenDocsMove) (t1 t2 : Nat), t2 - t1 < cacheTTL →
        (execEvents ⟨[]⟩ 0
          [CacheEvent.check 1 id t1,
           CacheEvent.resolve 1 id t1 (FetchOutcome.response (some d)),
           CacheEvent.check 2 id t2]).2 = 1) := by
  intro k id t
  constructor
  · rw [execEvents_replicate_miss (show getCheck ⟨[]⟩ t id = none from rfl) k 0]
    simp
  · intro d t1 t2 httl
    have hhit : getCheck (cacheSet ⟨[]⟩ (cacheKey id) ⟨d, t1⟩) t2 id = some d := by
      unfold getCheck cacheLookup cacheSet
      simp [httl]
    simp only [execEvents]
    rw [show getCheck ⟨[]⟩ t1 id = none from rfl]
    simp only [execEvents, getResolve, resolveFetch]
    rw [hhit]

/-- C2, witness: three concurrent checks issue three fetches; a caller
arriving 10 ms after a successful resolve is served from the cache. -/
theorem C2_witness :
    (execEvents ⟨[]⟩ 0 (List.replicate 3 (CacheEvent.check 0 "kazuya" 0))).2 = 3 ∧
    10 - 0 < cacheTTL ∧
    (execEvents ⟨[]⟩ 0
      [CacheEvent.check 1 "kazuya" 0,
       CacheEvent.resolve 1 "kazuya" 0 (FetchOutcome.response (some [])),
       CacheEvent.check 2 "kazuya" 10]).2 = 1 :=
  ⟨(C2_no_dedup 3 "kazuya" 0).1, by decide,
    (C2_no_dedup 3 "kazuya" 0).2 [] 0 10 (by decide)⟩

/-! ## Claim C5 — punish-window buckets -/

/-- C5, counterexample: a punishing move with parsed startup `100` (≥ 9 and
numeric) falls in **no** bucket — the `"15f+"` bucket is capped at
`maxFrame = 99`, so the buckets are not exhaustive over `[9, ∞)`, and the
window builder drops the move entirely. -/
theorem C5_counterexample :
    windowStartupParse (some "i100") = some 100 ∧
    (punishWindows.filter (fun c => windowContains c 100)).length = 0 ∧
    mkOptimalPunishes [⟨some "ff2", some "i100", none⟩] = [] := by
  decide

/-- C5, amended: the five buckets are pairwise disjoint and exhaustive over
the parsed startups in `[9, 99]` only (each such value lies in exactly one
bucket; every value outside `[9, 99]`, including all startups ≥ 100, lies
in none); the builder's range test is exactly membership of the parsed
startup, and no emitted window has an empty candidate set. -/
theorem C5_window_buckets :
    (∀ n : Int, (punishWindows.filter (fun c => windowContains c n)).length
        = if 9 ≤ n ∧ n ≤ 99 then 1 else 0) ∧
    (∀ (cfg : PunishWindowCfg) (raw : Option String) (n : Int),
      windowStartupParse raw = some n → inWindow cfg raw = windowContains cfg n) ∧
    (∀ (punishMoves : List RawPunishMove),
      ∀ w ∈ mkOptimalPunishes punishMoves, w.recommendedMoves ≠ []) := by
  refine ⟨?_, ?_, ?_⟩
  · intro n
    simp only [punishWindows, windowContains, List.filter_cons, List.filter_nil,
      Bool.and_eq_true, decide_eq_true_eq]
    split_ifs <;> simp_all <;> omega
  · intro cfg raw n h
    unfold inWindow
    rw [h]
  · intro pm w hw
    unfold mkOptimalPunishes at hw
    rcases List.mem_filter.mp hw with ⟨-, hpos⟩
    simpa using hpos

/-- C5, witness: startup `"10"` parses to `10`, and the range test for the
`"10f"` bucket agrees with membership of `10` in `[9, 10]`. -/
theorem C5_witness :
    windowStartupParse (some "10") = some 10 ∧
    inWindow ⟨"10f", 10, 9⟩ (some "10") = windowContains ⟨"10f", 10, 9⟩ 10 :=
  ⟨by decide, C5_window_buckets.2.1 ⟨"10f", 10, 9⟩ (some "10") 10 (by decide)⟩

/-! ## Claim C4 — frame-advantage rendering in punish options -/

/-- `parseInt("")` misses. -/
theorem jsParseInt_empty : jsParseInt "" = none := by decide

/-- C4, counterexample: an opponent move whose on-block text `"KND"` does
not parse still yields a pairing, but its reported advantage is the string
`"NaN frames"` (JavaScript arithmetic on `NaN` interpolated into the
template literal), not the value `"unknown"` the claim requires. -/
theorem C4_counterexample :
    (mkPunishOption ⟨some "df2", some "i15", some "KND"⟩
      ⟨some "112", some "10", none⟩).frameAdvantage = "NaN frames" ∧
    "NaN frames" ≠ "unknown" := by
  decide

/-- C4, amended: when both site parses succeed the advantage is
`abs(onBlock) - startup` rendered as `"<n> frames"`; when either fails the
pairing is still emitted but its advantage is the string `"NaN frames"`
(not `"unknown"`).  Moreover an absent/empty block or startup field is
defaulted to `"10"` before parsing (so a missing value is treated as
numeric 10, not as unknown), and one pairing is emitted per punishable
opponent move. -/
theorem C4_frame_advantage :
    (∀ (opp pm : RawPunishMove) (b s : Int),
      oppBlockAbs opp.blockFrame = some b →
      punishStartupParse pm.startupFrame = some s →
      (mkPunishOption opp pm).frameAdvantage = toString (b - s) ++ " frames") ∧
    (∀ opp pm : RawPunishMove,
      oppBlockAbs opp.blockFrame = none ∨ punishStartupParse pm.startupFrame = none →
      (mkPunishOption opp pm).frameAdvantage = "NaN frames") ∧
    (∀ (bs : String) (n : Int), jsParseInt (removePlus bs) = some n →
      oppBlockAbs (some bs) = some ((n.natAbs : Int))) ∧
    (oppBlockAbs none = some 10 ∧ punishStartupParse none = some 10) ∧
    (∀ oppMoves pMoves : List RawPunishMove,
      (fallbackPunishOptions oppMoves pMoves).length = oppMoves.length) := by
  refine ⟨?_, ?_, ?_, by decide, ?_⟩
  · intro opp pm b s h1 h2
    simp [mkPunishOption, h1, h2, jsNumToString]
  · intro opp pm h
    rcases h with h | h
    · simp [mkPunishOption, h, jsNumToString]
    · cases hopt : oppBlockAbs opp.blockFrame <;>
        simp [mkPunishOption, h, hopt, jsNumToString]
  · intro bs n h
    have hne : ¬ removePlus bs = "" := by
      intro he
      rw [he, jsParseInt_empty] at h
      exact Option.noConfusion h
    simp only [oppBlockAbs, jsStringOr, Option.map_some']
    rw [if_neg hne, h, Option.map_some']
  · intro oppMoves pMoves
    simp [fallbackPunishOptions]

/-- C4, witness: a `-13`-on-block opponent move punished by a 10-frame
move yields `abs(-13) - 10 = 3` frames of advantage. -/
theorem C4_witness :
    (mkPunishOption ⟨some "df2", some "i15", some "-13"⟩
      ⟨some "112", some "10", none⟩).frameAdvantage
      = toString ((13 : Int) - 10) ++ " frames" :=
  C4_frame_advantage.1 ⟨some "df2", some "i15", some "-13"⟩
    ⟨some "112", some "10", none⟩ 13 10 (by decide) (by decide)

/-! ## Claim C1 — the builder never fails; it falls back instead -/

/-- C1, counterexample: with no local sample data and a fetch that throws
for every character, `buildMatchupContext` does not fail — it returns a
complete `MatchupContext` whose two sides carry the empty substitute move
list, exactly what the claim rules out. -/
theorem C1_counterexample :
    buildMatchupContext (fun _ => none) (fun _ => Except.error "network down")
      "Kazuya" "Jin"
      = { playerCharacter := "Kazuya", opponentCharacter := "Jin",
          playerMoves := [], opponentMoves := [],
          playerKeyMoves := [], opponentPunishableMoves := [] } := by
  rfl

/-- C1, amended: whenever either side's needed fetch fails (the side has no
local sample data and its fetch rejects), the build never aborts: the catch
returns a complete context in which every side without local sample data
gets the empty fallback move list (and empty derived sets) while a side
with local data keeps it — even a successful fetch paired with the failed
one is discarded with the rejected `Promise.all`, leaving that side empty. -/
theorem C1_fallback_on_fetch_failure :
    ∀ (sample : String → Option (List TekkenDocsMove))
      (fetch : String → Except String FrameDataResponse)
      (p o e : String),
      ((sample (toCharacterId p) = none ∧ fetch (toCharacterId p) = Except.error e) ∨
       (sample (toCharacterId o) = none ∧ fetch (toCharacterId o) = Except.error e)) →
      buildMatchupContext sample fetch p o
        = { playerCharacter := p, opponentCharacter := o,
            playerMoves := (sample (toCharacterId p)).getD [],
            opponentMoves := (sample (toCharacterId o)).getD [],
            playerKeyMoves :=
              if 0 < ((sample (toCharacterId p)).getD []).length then
                identifyKeyMoves ((sample (toCharacterId p)).getD [])
              else [],
            opponentPunishableMoves :=
              if 0 < ((sample (toCharacterId o)).getD []).length then
                identifyPunishableMoves ((sample (toCharacterId o)).getD [])
              else [] } := by
  intro sample fetch p o e h
  rcases h with ⟨h1, h2⟩ | ⟨h1, h2⟩
  · cases h3 : sample (toCharacterId o) with
    | none => simp [buildMatchupContext, h1, h2, h3, localResponse]
    | some frames => simp [buildMatchupContext, h1, h2, h3, localResponse]
  · cases h3 : sample (toCharacterId p) with
    | none =>
      cases h4 : fetch (toCharacterId p) with
      | ok r => simp [buildMatchupContext, h1, h2, h3, h4, localResponse]
      | error e2 => simp [buildMatchupContext, h1, h2, h3, h4, localResponse]
    | some frames => simp [buildMatchupContext, h1, h2, h3, localResponse]

/-- C1, witness: both directions of the disjunction.  First, the player's
fetch fails while the opponent has local sample data: the build succeeds,
keeping the opponent's data and substituting the empty list for the player.
Second, only the opponent's needed fetch fails while the player's fetch
would succeed: the build still succeeds, and the player's successful fetch
result is discarded in favor of the empty fallback. -/
theorem C1_witness :
    (buildMatchupContext
      (fun i => if i = "jin" then some [mvMinus31] else none)
      (fun _ => Except.error "down") "Kazuya" "Jin Kazama"
      = { playerCharacter := "Kazuya", opponentCharacter := "Jin Kazama",
          playerMoves := [], opponentMoves := [mvMinus31],
          playerKeyMoves := [],
          opponentPunishableMoves := [mvMinus31] }) ∧
    (buildMatchupContext (fun _ => none)
      (fun i => if i = "jin" then Except.error "down"
                else Except.ok (localResponse i [mvPlus5]))
      "Kazuya" "Jin Kazama"
      = { playerCharacter := "Kazuya", opponentCharacter := "Jin Kazama",
          playerMoves := [], opponentMoves := [],
          playerKeyMoves := [], opponentPunishableMoves := [] }) := by
  constructor
  · rw [C1_fallback_on_fetch_failure
      (fun i => if i = "jin" then some [mvMinus31] else none)
      (fun _ => Except.error "down") "Kazuya" "Jin Kazama" "down"
      (Or.inl ⟨by decide, rfl⟩)]
    decide
  · rw [C1_fallback_on_fetch_failure (fun _ => none)
      (fun i => if i = "jin" then Except.error "down"
                else Except.ok (localResponse i [mvPlus5]))
      "Kazuya" "Jin Kazama" "down" (Or.inr ⟨rfl, rfl⟩)]
    decide

/-! ## Claim C9 — punishable moves: exact set, order, cap -/

/-- C9: `identifyPunishableMoves` keeps exactly the moves whose block text
parses to `n ≤ -10`, sorted by ascending block value (most negative first),
truncated to 15: every output move satisfies the predicate, the output is
ascending in parsed block value, its length is the filter count capped at
15, and whenever at most 15 moves qualify it is a permutation of (exactly)
the qualifying moves. -/
theorem C9_punishable_moves :
    ∀ l : List TekkenDocsMove,
      (∀ m ∈ identifyPunishableMoves l, isPunishable m = true) ∧
      (identifyPunishableMoves l).Pairwise (fun a b => blockVal a ≤ blockVal b) ∧
      (identifyPunishableMoves l).length = min 15 (l.filter isPunishable).length ∧
      ((l.filter isPunishable).length ≤ 15 →
        (identifyPunishableMoves l).Perm (l.filter isPunishable)) := by
  intro l
  have hperm := jsSort_perm punishCmp (l.filter isPunishable)
  refine ⟨?_, ?_, ?_, ?_⟩
  · intro m hm
    have hm' : m ∈ jsSort punishCmp (l.filter isPunishable) :=
      List.mem_of_mem_take hm
    exact List.of_mem_filter (hperm.mem_iff.mp hm')
  · have hPW : (jsSort punishCmp (l.filter isPunishable)).Pairwise
        (fun a b => punishCmp a b ≤ 0) := by
      unfold jsSort
      exact jsSort_pairwise punishCmp (S := fun _ => True) punishCmp_total
        (fun a b c _ _ _ => punishCmp_trans a b c) (l.filter isPunishable) []
        (fun _ _ => trivial) (fun _ h => absurd h (List.not_mem_nil _))
        List.Pairwise.nil
    have := hPW.sublist (List.take_sublist 15 _)
    exact this.imp (fun h => by unfold punishCmp at h; omega)
  · show (List.take 15 (jsSort punishCmp (l.filter isPunishable))).length = _
    rw [List.length_take, hperm.length_eq]
  · intro hle
    show (List.take 15 (jsSort punishCmp (l.filter isPunishable))).Perm _
    rw [List.take_of_length_le (by rw [hperm.length_eq]; exact hle)]
    exact hperm

/-- C9, witness: on a three-move list the safe `-9` move is excluded, both
punishable moves are kept, the cap is not hit, and `-31` ranks before
`-10`. -/
theorem C9_witness :
    (identifyPunishableMoves [mvMinus10, mvMinus9, mvMinus31]).Perm
      ([mvMinus10, mvMinus9, mvMinus31].filter isPunishable) ∧
    (identifyPunishableMoves [mvMinus10, mvMinus9, mvMinus31]).length
      = min 15 ([mvMinus10, mvMinus9, mvMinus31].filter isPunishable).length ∧
    identifyPunishableMoves [mvMinus10, mvMinus9, mvMinus31]
      = [mvMinus31, mvMinus10] :=
  ⟨(C9_punishable_moves [mvMinus10, mvMinus9, mvMinus31]).2.2.2 (by decide),
   (C9_punishable_moves [mvMinus10, mvMinus9, mvMinus31]).2.2.1,
   by decide⟩

/-! ## Claim C8 — key-move ordering -/

/-- C8, counterexample: a non-launcher fast poke with non-numeric block
text (`"KND"`) stays **before** a plus-on-block non-launcher: the
comparator returns `0` for any pair involving a non-numeric block value, so
numeric-block moves are *not* sorted ahead of non-numeric ones as the claim
requires (it demands `mvPlus5` first). -/
theorem C8_counterexample :
    identifyKeyMoves [mvKnd, mvPlus5] = [mvKnd, mvPlus5] ∧
    identifyKeyMoves [mvKnd, mvPlus5] ≠ [mvPlus5, mvKnd] ∧
    isLauncher mvKnd = false ∧ isLauncher mvPlus5 = false ∧
    parseBlockNum mvKnd = none ∧ parseBlockNum mvPlus5 = some 5 := by
  decide

/-- C8, amended: in `identifyKeyMoves` every launcher precedes every
non-launcher (unconditionally).  When every move's block value parses,
moves in the same launcher class appear in descending block order, and for
every sort key the moves carrying that key keep their original relative
order (stable ties).  Non-numeric-block moves, however, are not pushed
after the numeric ones: any pair involving a non-numeric block compares as
a tie, and the non-launcher non-numeric moves keep their original relative
order among themselves. -/
theorem C8_key_move_order :
    ∀ l : List TekkenDocsMove,
      (identifyKeyMoves l).Pairwise
        (fun a b => isLauncher b = true → isLauncher a = true) ∧
      ((∀ m ∈ l, (parseBlockNum m).isSome = true) →
        (identifyKeyMoves l).Pairwise
          (fun a b => isLauncher a = isLauncher b → blockVal b ≤ blockVal a)) ∧
      ((∀ m ∈ l, (parseBlockNum m).isSome = true) → ∀ k : Bool × Int,
        ((identifyKeyMoves l).filter (fun m => decide (moveKey m = k))).Sublist
          ((l.filter isKeyMove).filter (fun m => decide (moveKey m = k)))) ∧
      ((identifyKeyMoves l).filter nonNumNonLauncher).Sublist
        ((l.filter isKeyMove).filter nonNumNonLauncher) := by
  intro l
  have hperm := jsSort_perm keyMoveCmp (l.filter isKeyMove)
  refine ⟨?_, ?_, ?_, ?_⟩
  · have h1 : (jsSort keyMoveCmp (l.filter isKeyMove)).Pairwise
        (fun a b => isLauncher b = true → isLauncher a = true) := by
      unfold jsSort
      exact foldl_jsInsert_launcher (l.filter isKeyMove) [] List.Pairwise.nil
    exact h1.sublist (List.take_sublist 20 _)
  · intro hnum
    have hS : ∀ a ∈ l.filter isKeyMove, (parseBlockNum a).isSome = true :=
      fun a ha => hnum a (List.mem_of_mem_filter ha)
    have hPW : (jsSort keyMoveCmp (l.filter isKeyMove)).Pairwise
        (fun a b => keyMoveCmp a b ≤ 0) := by
      unfold jsSort
      exact jsSort_pairwise keyMoveCmp
        (S := fun m => (parseBlockNum m).isSome = true) keyMoveCmp_total
        (fun a b c => keyMoveCmp_trans) (l.filter isKeyMove) [] hS
        (fun _ h => absurd h (List.not_mem_nil _)) List.Pairwise.nil
    have hmemS : ∀ a ∈ jsSort keyMoveCmp (l.filter isKeyMove),
        (parseBlockNum a).isSome = true :=
      fun a ha => hS a (hperm.mem_iff.mp ha)
    have h2 := hPW.imp_of_mem (S := fun a b =>
        isLauncher a = isLauncher b → blockVal b ≤ blockVal a)
      (fun ha hb hr => by
        intro hcl
        rw [keyMoveCmp_eq_keys (hmemS _ ha) (hmemS _ hb), hcl] at hr
        cases h : isLauncher _ <;> rw [h] at hr <;> simp at hr <;> omega)
    exact h2.sublist (List.take_sublist 20 _)
  · intro hnum k
    have hS : ∀ a ∈ l.filter isKeyMove, (parseBlockNum a).isSome = true :=
      fun a ha => hnum a (List.mem_of_mem_filter ha)
    have heq : (jsSort keyMoveCmp (l.filter isKeyMove)).filter
          (fun m => decide (moveKey m = k))
        = (l.filter isKeyMove).filter (fun m => decide (moveKey m = k)) := by
      unfold jsSort
      rw [foldl_key_stable k (l.filter isKeyMove) [] hS
        (fun _ h => absurd h (List.not_mem_nil _)) List.Pairwise.nil]
      simp
    have hsub := (List.take_sublist 20
      (jsSort keyMoveCmp (l.filter isKeyMove))).filter
      (fun m => decide (moveKey m = k))
    rw [heq] at hsub
    exact hsub
  · have heq : (jsSort keyMoveCmp (l.filter isKeyMove)).filter nonNumNonLauncher
        = (l.filter isKeyMove).filter nonNumNonLauncher := by
      unfold jsSort
      rw [foldl_filter_nonNumNonLauncher (l.filter isKeyMove) []]
      simp
    have hsub := (List.take_sublist 20
      (jsSort keyMoveCmp (l.filter isKeyMove))).filter nonNumNonLauncher
    rw [heq] at hsub
    exact hsub

/-- C8, witness: on an all-numeric list (launcher at `-13`, non-launchers
at `+5` and `-2`) the launcher comes first and the non-launchers follow in
descending block order. -/
theorem C8_witness :
    (identifyKeyMoves [mvPlus5, mvLauncher, mvMinus2]).Pairwise
      (fun a b => isLauncher a = isLauncher b → blockVal b ≤ blockVal a) :=
  (C8_key_move_order [mvPlus5, mvLauncher, mvMinus2]).2.1 (by decide)

end Tekken
